import Mathlib

/-!
# Verification of the Job-Filtering-using-CrewAi pipeline

A shallow embedding, in Lean 4, of the pure/local logic of the repository
`Nani-Pasupuleti/Job-Filtering-using-CrewAi`:

* `src/job_searcher/main.py` — the crawler merge discipline (`crawl_jobs` /
  `handle_response`), the content fetcher (`get_job_text`), the LLM analysis
  retry loop (`analyze_job`), the title classifier (`is_tech_job`), and the
  orchestrator loop (`run`);
* `src/job_searcher/tools/resume_tool.py` — the LaTeX escaping helper
  (`escape_latex`) and the output-filename sanitisation of
  `ResumeBuilderTool._run`;
* `src/job_searcher/tools/custom_tool.py` — the guarded map-insertion of
  `JobSearchTool._run`.

Python strings are modelled as `String`/`List Char`; dictionaries keyed by
URL as functions `String → Option _`; network and browser I/O is modelled by
passing the environment's responses (attempt outcomes, selector extraction
results, user console input) as explicit arguments, so every function here
is a total, executable Lean function mirroring the Python control flow.
-/

/-! ## Python string primitives -/

/-- `leadsWith s p` : does the character list `s` start with `p`? -/
def leadsWith : List Char → List Char → Bool
  | _, [] => true
  | [], _ :: _ => false
  | c :: cs, p :: ps => c = p && leadsWith cs ps

/-- `hasSub s p` : Python's `p in s` substring test on character lists. -/
def hasSub : List Char → List Char → Bool
  | [], p => p.isEmpty
  | c :: cs, p => leadsWith (c :: cs) p || hasSub cs p

/-- Python's `str.lower()` restricted to the ASCII range (all keywords and
titles handled by the classifier are ASCII). -/
def pyLower (s : List Char) : List Char := s.map Char.toLower

/-- Python's `s[:n]` character slice, as a Lean `String`. -/
def pyTake (s : String) (n : Nat) : String := ⟨s.data.take n⟩

/-- Python's `s.replace(pat, rep)` for a single-character pattern `pat`:
every occurrence of `pat` is replaced by `rep`, scanning left to right, and
the replacement text is not rescanned. -/
def replace1 (pat : Char) (rep : List Char) : List Char → List Char
  | [] => []
  | c :: cs => if c = pat then rep ++ replace1 pat rep cs else c :: replace1 pat rep cs

/-! ## `is_tech_job` (main.py lines 332–365) -/

/-- The `bad_map` dict of `is_tech_job`, in its (insertion-ordered) source
order: a deny-list keyword paired with the rejection reason. -/
def bad_map : List (List Char × String) :=
  [ ("director".data, "Too Senior (Director Level)")
  , ("vp ".data, "Too Senior (VP Level)")
  , ("principal".data, "Too Senior (Principal Level)")
  , ("manager".data, "Management Role")
  , ("head of".data, "Management Role")
  , ("sales".data, "Non-Tech (Sales)")
  , ("marketing".data, "Non-Tech (Marketing)")
  , ("account".data, "Non-Tech (Accounts/Sales)")
  , ("finance".data, "Non-Tech (Finance)")
  , ("legal".data, "Non-Tech (Legal)")
  , ("hr ".data, "Non-Tech (HR)")
  , ("recruiter".data, "Non-Tech (HR)")
  , ("representative".data, "Non-Tech (Support/Sales)")
  , ("tax".data, "Non-Tech (Finance)") ]

/-- The `tech_keywords` allow-list of `is_tech_job`, in source order. -/
def tech_keywords : List (List Char) :=
  [ "engineer".data, "developer".data, "architect".data, "lead".data
  , "data".data, "qa".data, "sdet".data, "devops".data, "sre".data
  , "full stack".data, "backend".data, "frontend".data, "software".data
  , "technologist".data, "analyst".data, "consultant".data
  , "scientist".data, "administrator".data ]

/-- `is_tech_job` from `main.py`: lower-case the title, reject on the first
matching deny-list keyword (returning its reason), otherwise accept exactly
when some tech keyword occurs in the title. -/
def is_tech_job (title : String) : Bool × String :=
  let t := pyLower title.data
  match bad_map.find? (fun kr => hasSub t kr.1) with
  | some kr => (false, kr.2)
  | none =>
    if tech_keywords.any (fun k => hasSub t k) then (true, "Valid Tech Role")
    else (false, "Title does not contain Tech keywords")

/-! ## `escape_latex` (resume_tool.py lines 29–38)

The Python function iterates over the `replacements` dict in insertion
order, applying `str.replace` once per reserved character. -/

/-- `escape_latex` from `resume_tool.py`, on character lists, with the nine
single-character `str.replace` passes in the dict's source order. -/
def escape_latex (s : List Char) : List Char :=
  let s := replace1 '&' ['\\', '&'] s
  let s := replace1 '%' ['\\', '%'] s
  let s := replace1 '$' ['\\', '$'] s
  let s := replace1 '#' ['\\', '#'] s
  let s := replace1 '_' ['\\', '_'] s
  let s := replace1 '\x7b' ['\\', '\x7b'] s
  let s := replace1 '\x7d' ['\\', '\x7d'] s
  let s := replace1 '~' ("\\textasciitilde".data ++ ['\x7b', '\x7d']) s
  let s := replace1 '^' ("\\textasciicircum".data ++ ['\x7b', '\x7d']) s
  s

/-- The nine reserved characters handled by `escape_latex`. -/
def reservedChars : List Char :=
  ['&', '%', '$', '#', '_', '\x7b', '\x7d', '~', '^']

example : is_tech_job "Director of Engineering" = (false, "Too Senior (Director Level)") := by decide
example : is_tech_job "Backend Software Engineer" = (true, "Valid Tech Role") := by decide
example : escape_latex ['&'] = ['\\', '&'] := by decide
example : escape_latex ['\\', '&'] = ['\\', '\\', '&'] := by decide
example : escape_latex "abc def".data = "abc def".data := by decide

/-! ## `analyze_job` (main.py lines 184–242)

The network is modelled by the list of per-attempt outcomes the Groq
endpoint produces: a 429 rate-limit status, an exception / unparsable
response, or a response whose body yields a parsed JSON object. The
`for attempt in range(3)` loop consumes at most three outcomes; side
effects (`requests.post`, `time.sleep`) are recorded in an event trace. -/

/-- `ANALYZE_RATE_LIMIT_SLEEP = 30` (main.py line 22). -/
def ANALYZE_RATE_LIMIT_SLEEP : Nat := 30

/-- The result dict produced by `analyze_job` / consumed by `run`. -/
structure AnalysisResult where
  score : Int
  reason : String
  justification : String
  matching_skills : List String
  best_projects : List String
deriving DecidableEq, Repr

/-- The default negative result returned after all attempts fail
(main.py line 242). -/
def defaultAnalysis : AnalysisResult :=
  { score := 0, reason := "Failed", justification := "Analysis failed."
  , matching_skills := [], best_projects := [] }

/-- One attempt's outcome at the external API:
* `rateLimited` — `resp.status_code == 429`;
* `exn` — `requests.post` (or response handling) raised, caught by the
  bare `except: pass`;
* `ok p` — a response whose content parsing yields `p` (`some r` when the
  brace-delimited object parses, `none` when no `re.search` match or both
  `json.loads` and `ast.literal_eval` fail — the latter raises and is
  swallowed like `exn`). -/
inductive ApiOutcome where
  | rateLimited : ApiOutcome
  | exn : ApiOutcome
  | ok : Option AnalysisResult → ApiOutcome
deriving DecidableEq, Repr

/-- Whether an outcome yields a parsed result (causing an early `return`). -/
def ApiOutcome.parsed : ApiOutcome → Option AnalysisResult
  | .ok (some r) => some r
  | _ => none

/-- Observable side effects of the `analyze_job` loop body. -/
inductive ApiEvent where
  | post : ApiEvent
  | sleep : Nat → ApiEvent
deriving DecidableEq, Repr

/-- The `for attempt in range(3)` loop of `analyze_job`, one outcome per
iteration: a 429 sleeps `ANALYZE_RATE_LIMIT_SLEEP` and `continue`s, a
parsed response returns it, and any other failure falls through to the
`time.sleep(2)` at the bottom of the loop body. Returns the event trace
and the early-returned result, if any. -/
def analyzeAttempts : List ApiOutcome → List ApiEvent × Option AnalysisResult
  | [] => ([], none)
  | o :: rest =>
    match o with
    | .rateLimited =>
      let (evs, r) := analyzeAttempts rest
      (ApiEvent.post :: ApiEvent.sleep ANALYZE_RATE_LIMIT_SLEEP :: evs, r)
    | .ok (some r) => ([ApiEvent.post], some r)
    | .ok none =>
      let (evs, r) := analyzeAttempts rest
      (ApiEvent.post :: ApiEvent.sleep 2 :: evs, r)
    | .exn =>
      let (evs, r) := analyzeAttempts rest
      (ApiEvent.post :: ApiEvent.sleep 2 :: evs, r)

/-- `analyze_job`: three attempts against the API (`range(3)`), then the
default negative result when none parsed. `outcomes i` is the outcome the
environment produces for attempt `i`. -/
def analyze_job (outcomes : Nat → ApiOutcome) : AnalysisResult :=
  (analyzeAttempts [outcomes 0, outcomes 1, outcomes 2]).2.getD defaultAnalysis

/-- Event trace of one `analyze_job` call. -/
def analyze_job_trace (outcomes : Nat → ApiOutcome) : List ApiEvent :=
  (analyzeAttempts [outcomes 0, outcomes 1, outcomes 2]).1

/-- Number of `requests.post` calls in a trace. -/
def countPosts (evs : List ApiEvent) : Nat :=
  (evs.filter (fun e => e = ApiEvent.post)).length

/-! ## `get_job_text` (main.py lines 153–180)

The browser is modelled by what the navigated page yields for each
selector probe and for the body fallback; a job record's `content` field
is an `Option String` (`None`/missing or a string, Python truthiness
`job.get("content")` makes `""` and `None` coincide). -/

/-- A job record as produced by `crawl_jobs`, restricted to the fields
`get_job_text` reads. -/
structure JobRec where
  title : String
  url : String
  content : Option String
deriving DecidableEq, Repr

/-- What one `page.locator(sel).count() > 0 / page.inner_text(sel)` probe
yields: an exception (caught by the inner `except: pass`), a zero count
(selector absent), or extracted text. -/
inductive SelOutcome where
  | err : SelOutcome
  | absent : SelOutcome
  | text : String → SelOutcome
deriving DecidableEq, Repr

/-- The navigated page, as `get_job_text` observes it: whether
`page.goto` raises, the outcome of each selector probe, and the
`page.inner_text("body")` result (`none` = raises). -/
structure PageEnv where
  navFails : Bool
  sel : String → SelOutcome
  body : Option String

/-- The candidate selector sequence of `get_job_text`, in source order. -/
def candidateSelectors : List String :=
  ["main", "article", ".job-description", "#job-description", ".content"]

/-- The `for selector in [...]` loop: the first probe that returns text
sets `content` and breaks; exceptions and zero counts move on; if none
breaks, `content` remains `""`. -/
def selectorLoop (env : PageEnv) : List String → String
  | [] => ""
  | s :: rest =>
    match env.sel s with
    | .err => selectorLoop env rest
    | .absent => selectorLoop env rest
    | .text t => t

/-- The browser part of `get_job_text` (everything under
`with sync_playwright()`): `goto`, the selector loop, the body fallback
when `content` is still falsy, truncation to 6000 characters, and `""` on
any exception reaching the outer `except`. -/
def fetchFromPage (env : PageEnv) : String :=
  if env.navFails then ""
  else
    let content := selectorLoop env candidateSelectors
    if content = "" then
      match env.body with
      | some b => pyTake b 6000
      | none => ""
    else pyTake content 6000

/-- `get_job_text`: return the inline `content[:6000]` when the record's
content is truthy and longer than 100 characters, otherwise navigate and
extract (`fetchFromPage`). -/
def get_job_text (job : JobRec) (env : PageEnv) : String :=
  match job.content with
  | some c => if 100 < c.length then pyTake c 6000 else fetchFromPage env
  | none => fetchFromPage env

/-! ## The crawler's dual-source merge

`crawl_jobs` (main.py lines 33–149) and `JobSearchTool._run`
(custom_tool.py lines 17–112) both accumulate discovered job records in a
single dict keyed by job URL (`found_jobs` / `found_jobs_map`). Records
arrive from two sources, interleaved in time: the network sniffer callback
(`handle_response`, fired whenever a JSON response passes the heuristics)
and the DOM link scraper that runs after scrolling. We model the dict as a
partial map `String → Option JobRec` and a crawl as the fold of the
arrival-ordered event list:

* an API-sniffed record is written with plain dict assignment
  `found_jobs[j_url] = {...}` (main.py line 87); in custom_tool.py the
  write is additionally guarded by `if j_url not in found_jobs_map`, which
  only makes it insert-if-absent — never weaker;
* a DOM-scraped record is inserted only under
  `if full_url not in found_jobs` (main.py line 134; custom_tool.py line
  90 `continue`s when present). -/

/-- A record discovery event during a crawl: the source, the record's URL
key, and the record. -/
inductive CrawlEvent where
  | api : String → JobRec → CrawlEvent
  | dom : String → JobRec → CrawlEvent
deriving DecidableEq, Repr

/-- The URL key of an event. -/
def CrawlEvent.url : CrawlEvent → String
  | .api u _ => u
  | .dom u _ => u

/-- Whether an event comes from the DOM scraper. -/
def CrawlEvent.isDom : CrawlEvent → Bool
  | .api _ _ => false
  | .dom _ _ => true

/-- Apply one discovery to the URL-keyed dict: API records are assigned
unconditionally, DOM records only when the URL is not yet present. -/
def applyEvent (m : String → Option JobRec) : CrawlEvent → (String → Option JobRec)
  | .api u rec => fun v => if v = u then some rec else m v
  | .dom u rec =>
    match m u with
    | some _ => m
    | none => fun v => if v = u then some rec else m v

/-- The merged dict after processing a crawl's events in arrival order. -/
def crawlMerge (es : List CrawlEvent) (m : String → Option JobRec) :
    String → Option JobRec :=
  es.foldl applyEvent m

/-! ## The orchestrator `run` (main.py lines 368–455)

The scoring loop walks the crawled jobs with a 1-based counter `current`.
A job failing the title filter, or whose fetched text is shorter than 100
characters, is skipped with `continue` — which also skips the
end-of-iteration checkpoint. A processed job is appended to `valid_jobs`
exactly when its analysis score is ≥ 50, and when `current % 5 == 0` the
console shows the continue/stop prompt; answering `stop` (after
`.lower()`) breaks the loop.

Per-job environment data (the `get_job_text` result and the `analyze_job`
result) is carried on the input records; the console is modelled by the
function giving the user's answer at each checkpoint. -/

/-- One crawled job together with what the environment returns for it:
`text` is the `get_job_text` result, `analysis` the `analyze_job` result. -/
structure JobInput where
  title : String
  url : String
  text : String
  analysis : AnalysisResult
deriving DecidableEq, Repr

/-- A job that passed the threshold, with the fields `run` sets before
appending to `valid_jobs` (main.py lines 404–410). -/
structure ScoredJob where
  title : String
  url : String
  description : String
  match_score : Int
  matching_skills : List String
  best_projects : List String
  company : String
deriving DecidableEq, Repr

/-- The record appended to `valid_jobs` for a processed job. -/
def mkScored (j : JobInput) : ScoredJob :=
  { title := j.title, url := j.url, description := j.text
  , match_score := j.analysis.score
  , matching_skills := j.analysis.matching_skills
  , best_projects := j.analysis.best_projects
  , company := "Zscaler" }

/-- The scoring loop of `run`, from counter value `cur` (1-based):
returns `valid_jobs` and the list of counter values at which the
continue/stop prompt was shown. `answer c` is the console line typed at
checkpoint `c`; the loop breaks when its `.lower()` equals `"stop"`. -/
def scoreLoop (answer : Nat → String) : Nat → List JobInput → List ScoredJob × List Nat
  | _, [] => ([], [])
  | cur, j :: rest =>
    if (is_tech_job j.title).1 = false then
      scoreLoop answer (cur + 1) rest
    else if j.text.length < 100 then
      scoreLoop answer (cur + 1) rest
    else
      let appended := if 50 ≤ j.analysis.score then [mkScored j] else []
      if cur % 5 = 0 then
        if pyLower (answer cur).data = "stop".data then (appended, [cur])
        else
          let r := scoreLoop answer (cur + 1) rest
          (appended ++ r.1, cur :: r.2)
      else
        let r := scoreLoop answer (cur + 1) rest
        (appended ++ r.1, r.2)

/-- The descending-score order used by `valid_jobs.sort(key=lambda x:
x["match_score"], reverse=True)`. -/
def scoreGE (a b : ScoredJob) : Prop := b.match_score ≤ a.match_score

instance : DecidableRel scoreGE := fun a b => Int.decLe b.match_score a.match_score

instance : IsTotal ScoredJob scoreGE := ⟨fun a b => le_total b.match_score a.match_score⟩

instance : IsTrans ScoredJob scoreGE := ⟨fun _ _ _ hab hbc => le_trans hbc hab⟩

/-- `valid_jobs` sorted by descending `match_score` (a stable sort, like
Python's `list.sort`). -/
def sortByScoreDesc (l : List ScoredJob) : List ScoredJob :=
  l.insertionSort scoreGE

/-- The resume-generation phase of `run`: sort, read the count (the
`except` clause turns any invalid input into `0`), and when positive take
that many jobs off the top (`valid_jobs[:limit]`). -/
def resumeTargets (valid : List ScoredJob) (limitInput : Option Int) : List ScoredJob :=
  let sorted := sortByScoreDesc valid
  let limit := limitInput.getD 0
  if 0 < limit then sorted.take limit.toNat else []

/-! ## `ResumeBuilderTool._run` output naming (resume_tool.py lines 146–158)

The tool renders the template and performs a single
`open(output_path, "w")` write per invocation; we model the write by the
file it produces. `safe_jobid` keeps only characters passing
`c.isalnum() or c in (' ', '_', '-')`, strips surrounding whitespace, and
turns spaces into underscores. Python's `str.isalnum` is Unicode-wide, so
the alphanumeric test is a parameter `isaln`; the proofs hold for every
choice of it, in particular for Python's. -/

/-- Python's default `str.strip()` whitespace set. -/
def pyIsSpace (c : Char) : Bool :=
  c = ' ' || c = '\t' || c = '\n' || c = '\r' || c = '\x0b' || c = '\x0c'

/-- Python's `s.strip()`: drop leading and trailing whitespace. -/
def pyStrip (l : List Char) : List Char :=
  ((l.dropWhile pyIsSpace).reverse.dropWhile pyIsSpace).reverse

/-- The `safe_jobid` computation: filter to alphanumerics, space,
underscore and hyphen; strip; replace spaces by underscores. -/
def safe_jobid (isaln : Char → Bool) (jobid : String) : List Char :=
  let kept := jobid.data.filter (fun c => isaln c || c = ' ' || c = '_' || c = '-')
  (pyStrip kept).map (fun c => if c = ' ' then '_' else c)

/-- The single output filename `ResumeBuilderTool._run` writes (inside the
fixed `output` directory). -/
def output_filename (isaln : Char → Bool) (jobid : String) : String :=
  "Resume_Nani_" ++ ⟨safe_jobid isaln jobid⟩ ++ ".tex"

/-! ## Helper lemmas -/

/-- A `str.replace` pass whose pattern does not occur leaves the string
unchanged. -/
theorem replace1_of_not_mem {pat : Char} {s : List Char} (rep : List Char)
    (h : pat ∉ s) : replace1 pat rep s = s := by
  induction s with
  | nil => rfl
  | cons c cs ih =>
    have hc : ¬c = pat := fun e => h (e ▸ List.mem_cons_self c cs)
    have hcs : pat ∉ cs := fun m => h (List.mem_cons_of_mem c m)
    simp [replace1, hc, ih hcs]

/-- On a string free of the nine reserved characters, `escape_latex` is
the identity: each of its nine `str.replace` passes finds no occurrence. -/
theorem escape_latex_of_no_reserved {s : List Char}
    (h : ∀ c ∈ s, c ∉ reservedChars) : escape_latex s = s := by
  have hns : ∀ c ∈ reservedChars, c ∉ s := fun c hc hs => h c hs hc
  show replace1 '^' _ (replace1 '~' _ (replace1 '\x7d' _ (replace1 '\x7b' _
    (replace1 '_' _ (replace1 '#' _ (replace1 '$' _ (replace1 '%' _
      (replace1 '&' _ s)))))))) = s
  rw [replace1_of_not_mem _ (hns '&' (by decide)),
      replace1_of_not_mem _ (hns '%' (by decide)),
      replace1_of_not_mem _ (hns '$' (by decide)),
      replace1_of_not_mem _ (hns '#' (by decide)),
      replace1_of_not_mem _ (hns '_' (by decide)),
      replace1_of_not_mem _ (hns '\x7b' (by decide)),
      replace1_of_not_mem _ (hns '\x7d' (by decide)),
      replace1_of_not_mem _ (hns '~' (by decide)),
      replace1_of_not_mem _ (hns '^' (by decide))]

/-- The retry loop makes one `requests.post` per attempt it runs, so at
most one per available outcome. -/
theorem countPosts_analyzeAttempts_le (os : List ApiOutcome) :
    countPosts (analyzeAttempts os).1 ≤ os.length := by
  induction os with
  | nil => simp [analyzeAttempts, countPosts]
  | cons o rest ih =>
    match o with
    | .rateLimited => simpa [analyzeAttempts, countPosts, Nat.succ_le_succ_iff] using ih
    | .exn => simpa [analyzeAttempts, countPosts, Nat.succ_le_succ_iff] using ih
    | .ok none => simpa [analyzeAttempts, countPosts, Nat.succ_le_succ_iff] using ih
    | .ok (some r) => simp [analyzeAttempts, countPosts]

/-- If no attempt's outcome parses, the loop returns no early result. -/
theorem analyzeAttempts_none (os : List ApiOutcome)
    (h : ∀ o ∈ os, o.parsed = none) : (analyzeAttempts os).2 = none := by
  induction os with
  | nil => rfl
  | cons o rest ih =>
    have hrest : ∀ o ∈ rest, o.parsed = none :=
      fun o' m => h o' (List.mem_cons_of_mem o m)
    match o with
    | .rateLimited => simpa [analyzeAttempts] using ih hrest
    | .exn => simpa [analyzeAttempts] using ih hrest
    | .ok none => simpa [analyzeAttempts] using ih hrest
    | .ok (some r) =>
      exact absurd (h _ (List.mem_cons_self _ _)) (by simp [ApiOutcome.parsed])

/-! ## Claims -/

/-- C1. The title classifier `is_tech_job` rejects
"Director of Engineering" (the deny-list keyword "director" matches) and
accepts "Backend Software Engineer" (no deny-list keyword matches and the
tech keyword "engineer" occurs). -/
theorem is_tech_job_examples :
    (is_tech_job "Director of Engineering").1 = false ∧
    (is_tech_job "Backend Software Engineer").1 = true := by
  decide

/-- C2 counterexample. `escape_latex` is not idempotent: on the reserved
character `&` a second application escapes the backslash-inserted `&`
again, so `escape_latex (escape_latex "&") = "\\&" ≠ "\&" =
escape_latex "&"`. -/
theorem escape_latex_not_idempotent_on_amp :
    escape_latex (escape_latex ['&']) ≠ escape_latex ['&'] := by
  decide

/-- C2 amended. `escape_latex` applied twice agrees with one application
exactly on inputs free of the nine reserved characters; on a reserved
character the second pass re-escapes the inserted escape sequence. -/
theorem escape_latex_idempotent_on_plain (s : List Char)
    (h : ∀ c ∈ s, c ∉ reservedChars) :
    escape_latex (escape_latex s) = escape_latex s := by
  rw [escape_latex_of_no_reserved h, escape_latex_of_no_reserved h]

/-- C2 amended, witness at a concrete reserved-free input. -/
theorem escape_latex_idempotent_on_plain_witness :
    escape_latex (escape_latex "plain ascii text".data) =
      escape_latex "plain ascii text".data :=
  escape_latex_idempotent_on_plain "plain ascii text".data (by decide)

/-- C3. On an ASCII string containing none of the nine reserved characters
`&`, `%`, `$`, `#`, `_`, `{`, `}`, `~`, `^`, `escape_latex` returns its
input unchanged. -/
theorem escape_latex_roundtrip_plain_ascii (s : List Char)
    (_hascii : ∀ c ∈ s, c.toNat ≤ 127) (h : ∀ c ∈ s, c ∉ reservedChars) :
    escape_latex s = s :=
  escape_latex_of_no_reserved h

/-- C3 witness at a concrete plain-ASCII input. -/
theorem escape_latex_roundtrip_plain_ascii_witness :
    escape_latex "Backend Engineer - Java, Python 2024".data =
      "Backend Engineer - Java, Python 2024".data :=
  escape_latex_roundtrip_plain_ascii _ (by decide) (by decide)

/-- C4. `analyze_job` posts to the external API at most three times; a 429
outcome contributes a `post` followed by a fixed
`ANALYZE_RATE_LIMIT_SLEEP`-second sleep and the loop retries on the
remaining attempts; and when none of the three attempts yields a parsed
result the function returns the default negative result
`{score := 0, reason := "Failed", justification := "Analysis failed.",
matching_skills := [], best_projects := []}` instead of raising. -/
theorem analyze_job_retry_spec (outcomes : Nat → ApiOutcome) :
    countPosts (analyze_job_trace outcomes) ≤ 3 ∧
    (∀ rest : List ApiOutcome,
      analyzeAttempts (ApiOutcome.rateLimited :: rest) =
        (ApiEvent.post :: ApiEvent.sleep ANALYZE_RATE_LIMIT_SLEEP ::
            (analyzeAttempts rest).1,
          (analyzeAttempts rest).2)) ∧
    ((∀ i, i < 3 → (outcomes i).parsed = none) →
      analyze_job outcomes = defaultAnalysis) := by
  refine ⟨countPosts_analyzeAttempts_le _, fun rest => ?_, fun h => ?_⟩
  · simp [analyzeAttempts]
  · have hall : ∀ o ∈ [outcomes 0, outcomes 1, outcomes 2], o.parsed = none := by
      intro o mo
      simp only [List.mem_cons, List.not_mem_nil, or_false] at mo
      rcases mo with rfl | rfl | rfl
      · exact h 0 (by omega)
      · exact h 1 (by omega)
      · exact h 2 (by omega)
    simp [analyze_job, analyzeAttempts_none _ hall]

/-- C4 witness: with every attempt raising, `analyze_job` returns the
default negative result, after at most three posts. -/
theorem analyze_job_retry_spec_witness :
    analyze_job (fun _ => ApiOutcome.exn) = defaultAnalysis :=
  (analyze_job_retry_spec (fun _ => ApiOutcome.exn)).2.2 (by decide)

/-! ### Step equations for the scoring loop -/

/-- A job failing the title filter is skipped with `continue`: no append,
no checkpoint prompt, counter advances. -/
theorem scoreLoop_skip_title {answer : Nat → String} {cur : Nat}
    {j : JobInput} {rest : List JobInput}
    (h : (is_tech_job j.title).1 = false) :
    scoreLoop answer cur (j :: rest) = scoreLoop answer (cur + 1) rest := by
  simp [scoreLoop, h]

/-- A job whose fetched text is shorter than 100 characters is skipped
with `continue`: no append, no checkpoint prompt, counter advances. -/
theorem scoreLoop_skip_text {answer : Nat → String} {cur : Nat}
    {j : JobInput} {rest : List JobInput}
    (h1 : (is_tech_job j.title).1 = true) (h2 : j.text.length < 100) :
    scoreLoop answer cur (j :: rest) = scoreLoop answer (cur + 1) rest := by
  simp [scoreLoop, h1, h2]

/-- A processed job at a checkpoint (`current % 5 == 0`) where the user
answers `stop`: the prompt is shown, the loop breaks. -/
theorem scoreLoop_checkpoint_stop {answer : Nat → String} {cur : Nat}
    {j : JobInput} {rest : List JobInput}
    (h1 : (is_tech_job j.title).1 = true) (h2 : ¬j.text.length < 100)
    (h5 : cur % 5 = 0) (hstop : pyLower (answer cur).data = "stop".data) :
    scoreLoop answer cur (j :: rest) =
      ((if 50 ≤ j.analysis.score then [mkScored j] else []), [cur]) := by
  simp [scoreLoop, h1, h2, h5, hstop]

/-- A processed job at a checkpoint where the user does not answer `stop`:
the prompt is shown, the loop continues. -/
theorem scoreLoop_checkpoint_go {answer : Nat → String} {cur : Nat}
    {j : JobInput} {rest : List JobInput}
    (h1 : (is_tech_job j.title).1 = true) (h2 : ¬j.text.length < 100)
    (h5 : cur % 5 = 0) (hgo : ¬pyLower (answer cur).data = "stop".data) :
    scoreLoop answer cur (j :: rest) =
      ((if 50 ≤ j.analysis.score then [mkScored j] else []) ++
          (scoreLoop answer (cur + 1) rest).1,
        cur :: (scoreLoop answer (cur + 1) rest).2) := by
  simp [scoreLoop, h1, h2, h5, hgo]

/-- A processed job away from a checkpoint: no prompt. -/
theorem scoreLoop_no_checkpoint {answer : Nat → String} {cur : Nat}
    {j : JobInput} {rest : List JobInput}
    (h1 : (is_tech_job j.title).1 = true) (h2 : ¬j.text.length < 100)
    (h5 : cur % 5 ≠ 0) :
    scoreLoop answer cur (j :: rest) =
      ((if 50 ≤ j.analysis.score then [mkScored j] else []) ++
          (scoreLoop answer (cur + 1) rest).1,
        (scoreLoop answer (cur + 1) rest).2) := by
  simp [scoreLoop, h1, h2, h5]

/-- Every job in `valid_jobs` was appended under `if score >= 50`, with
`match_score` set to that score. -/
theorem scoreLoop_score_ge (answer : Nat → String) (jobs : List JobInput) :
    ∀ (cur : Nat) (j : ScoredJob),
      j ∈ (scoreLoop answer cur jobs).1 → 50 ≤ j.match_score := by
  induction jobs with
  | nil =>
    intro cur j hj
    simp [scoreLoop] at hj
  | cons a rest ih =>
    intro cur j hj
    have append_case :
        ∀ l : List ScoredJob,
          j ∈ (if 50 ≤ a.analysis.score then [mkScored a] else []) ++ l →
            (∀ x ∈ l, 50 ≤ x.match_score) → 50 ≤ j.match_score := by
      intro l hl hrec
      rcases List.mem_append.1 hl with hl | hl
      · by_cases hs : 50 ≤ a.analysis.score
        · rw [if_pos hs] at hl
          rw [List.mem_singleton.1 hl]
          simpa [mkScored] using hs
        · rw [if_neg hs] at hl
          cases hl
      · exact hrec j hl
    by_cases h1 : (is_tech_job a.title).1 = false
    · rw [scoreLoop_skip_title h1] at hj
      exact ih _ _ hj
    · have h1' : (is_tech_job a.title).1 = true := by
        cases h : (is_tech_job a.title).1
        · exact absurd h h1
        · rfl
      by_cases h2 : a.text.length < 100
      · rw [scoreLoop_skip_text h1' h2] at hj
        exact ih _ _ hj
      · by_cases h5 : cur % 5 = 0
        · by_cases hstop : pyLower (answer cur).data = "stop".data
          · rw [scoreLoop_checkpoint_stop h1' h2 h5 hstop] at hj
            exact append_case [] (by simpa using hj) (by intro x hx; cases hx)
          · rw [scoreLoop_checkpoint_go h1' h2 h5 hstop] at hj
            exact append_case _ hj (fun x hx => ih _ _ hx)
        · rw [scoreLoop_no_checkpoint h1' h2 h5] at hj
          exact append_case _ hj (fun x hx => ih _ _ hx)

/-- C5. The orchestrator `run` appends a job to `valid_jobs` only when its
analysis score is at least 50; sorts `valid_jobs` in descending order of
`match_score` before resume generation; generates resumes exactly for the
first `limit` jobs of the sorted list when the user-entered count `limit`
is positive; and skips generation when the input is invalid (count `0`)
or non-positive. -/
theorem run_threshold_sort_truncate (answer : Nat → String)
    (jobs : List JobInput) :
    (∀ j ∈ (scoreLoop answer 1 jobs).1, 50 ≤ j.match_score) ∧
    List.Sorted scoreGE (sortByScoreDesc (scoreLoop answer 1 jobs).1) ∧
    resumeTargets (scoreLoop answer 1 jobs).1 none = [] ∧
    (∀ lim : Int, 0 < lim →
      resumeTargets (scoreLoop answer 1 jobs).1 (some lim) =
        (sortByScoreDesc (scoreLoop answer 1 jobs).1).take lim.toNat) ∧
    (∀ lim : Int, lim ≤ 0 →
      resumeTargets (scoreLoop answer 1 jobs).1 (some lim) = []) := by
  refine ⟨fun j hj => scoreLoop_score_ge answer jobs 1 j hj,
    List.sorted_insertionSort scoreGE _, by simp [resumeTargets],
    fun lim hlim => ?_, fun lim hlim => ?_⟩
  · simp [resumeTargets, hlim]
  · simp [resumeTargets, Int.not_lt.2 hlim]

/-- C5 witness at a concrete loop input and generation count. -/
theorem run_threshold_sort_truncate_witness :
    resumeTargets
        (scoreLoop (fun _ => "")
          1 [{ title := "Backend Software Engineer", url := "https://a/1"
             , text := ⟨List.replicate 120 'x'⟩
             , analysis := { score := 80, reason := "r", justification := "j"
                           , matching_skills := [], best_projects := [] } }]).1
        (some 2) =
      (sortByScoreDesc
        (scoreLoop (fun _ => "")
          1 [{ title := "Backend Software Engineer", url := "https://a/1"
             , text := ⟨List.replicate 120 'x'⟩
             , analysis := { score := 80, reason := "r", justification := "j"
                           , matching_skills := [], best_projects := [] } }]).1).take
        (2 : Int).toNat :=
  (run_threshold_sort_truncate (fun _ => "") _).2.2.2.1 2 (by decide)

/-! ### The every-five-jobs checkpoint (C6)

In `run`, the `if current % 5 == 0` checkpoint sits at the *end* of the
loop body, after the `continue` statements of the title filter and the
empty-content guard — so a skipped job never shows the prompt, even when
its index is a multiple of five. -/

/-- Five jobs that the title filter skips (the deny-list keyword "sales"
matches each title). -/
def fiveSkippedJobs : List JobInput :=
  List.replicate 5
    { title := "Sales Representative", url := "https://a/sales"
    , text := "", analysis := defaultAnalysis }

/-- C6 counterexample. On a list of five jobs all skipped by the title
filter, the claim would show the continue/stop prompt at index 5; the
code's loop `continue`s before the checkpoint, so no prompt is ever
shown. -/
theorem prompt_missing_for_skipped_fifth_job :
    fiveSkippedJobs.length = 5 ∧
    (scoreLoop (fun _ => "") 1 fiveSkippedJobs).2 = [] ∧
    5 ∉ (scoreLoop (fun _ => "") 1 fiveSkippedJobs).2 := by
  decide

/-- Every prompt index recorded by the loop is a multiple of five, and at
least the starting counter value. -/
theorem scoreLoop_prompts_mod5 (answer : Nat → String) (jobs : List JobInput) :
    ∀ (cur : Nat) (c : Nat), c ∈ (scoreLoop answer cur jobs).2 →
      c % 5 = 0 ∧ cur ≤ c := by
  induction jobs with
  | nil =>
    intro cur c hc
    simp [scoreLoop] at hc
  | cons a rest ih =>
    intro cur c hc
    by_cases h1 : (is_tech_job a.title).1 = false
    · rw [scoreLoop_skip_title h1] at hc
      have := ih _ _ hc
      omega
    · have h1' : (is_tech_job a.title).1 = true := by
        cases h : (is_tech_job a.title).1
        · exact absurd h h1
        · rfl
      by_cases h2 : a.text.length < 100
      · rw [scoreLoop_skip_text h1' h2] at hc
        have := ih _ _ hc
        omega
      · by_cases h5 : cur % 5 = 0
        · by_cases hstop : pyLower (answer cur).data = "stop".data
          · rw [scoreLoop_checkpoint_stop h1' h2 h5 hstop] at hc
            have : c = cur := List.mem_singleton.1 hc
            omega
          · rw [scoreLoop_checkpoint_go h1' h2 h5 hstop] at hc
            rcases List.mem_cons.1 hc with rfl | hc
            · omega
            · have := ih _ _ hc
              omega
        · rw [scoreLoop_no_checkpoint h1' h2 h5] at hc
          have := ih _ _ hc
          omega

/-- C6 amended. The continue/stop prompt is shown at the end of a loop
iteration exactly for *processed* jobs at counters that are multiples of
five: every recorded prompt index is a multiple of 5; a job skipped by the
title filter or by the empty-content guard `continue`s past the
checkpoint (even at a multiple of 5); and a processed job shows the prompt
at its checkpoint, breaking the loop when the user answers `stop`. -/
theorem run_checkpoint_every_five (answer : Nat → String) :
    (∀ (jobs : List JobInput) (cur c : Nat),
      c ∈ (scoreLoop answer cur jobs).2 → c % 5 = 0) ∧
    (∀ (j : JobInput) (rest : List JobInput) (cur : Nat),
      (is_tech_job j.title).1 = false ∨ j.text.length < 100 →
        scoreLoop answer cur (j :: rest) = scoreLoop answer (cur + 1) rest) ∧
    (∀ (j : JobInput) (rest : List JobInput) (cur : Nat),
      (is_tech_job j.title).1 = true → 100 ≤ j.text.length → cur % 5 = 0 →
        cur ∈ (scoreLoop answer cur (j :: rest)).2) ∧
    (∀ (j : JobInput) (rest : List JobInput) (cur : Nat),
      (is_tech_job j.title).1 = true → 100 ≤ j.text.length → cur % 5 ≠ 0 →
        (scoreLoop answer cur (j :: rest)).2 =
          (scoreLoop answer (cur + 1) rest).2) := by
  refine ⟨fun jobs cur c hc => (scoreLoop_prompts_mod5 answer jobs cur c hc).1,
    fun j rest cur h => ?_, fun j rest cur h1 h2 h5 => ?_,
    fun j rest cur h1 h2 h5 => ?_⟩
  · rcases h with h | h
    · exact scoreLoop_skip_title h
    · by_cases h1 : (is_tech_job j.title).1 = false
      · exact scoreLoop_skip_title h1
      · have h1' : (is_tech_job j.title).1 = true := by
          cases hb : (is_tech_job j.title).1
          · exact absurd hb h1
          · rfl
        exact scoreLoop_skip_text h1' h
  · have h2' : ¬j.text.length < 100 := by omega
    by_cases hstop : pyLower (answer cur).data = "stop".data
    · rw [scoreLoop_checkpoint_stop h1 h2' h5 hstop]
      exact List.mem_singleton.2 rfl
    · rw [scoreLoop_checkpoint_go h1 h2' h5 hstop]
      exact List.mem_cons_self _ _
  · have h2' : ¬j.text.length < 100 := by omega
    rw [scoreLoop_no_checkpoint h1 h2' h5]

/-- C6 amended, witness: a processed job at counter 5 shows the prompt. -/
theorem run_checkpoint_every_five_witness :
    (5 : Nat) ∈ (scoreLoop (fun _ => "") 5
      [{ title := "Backend Software Engineer", url := "https://a/2"
       , text := ⟨List.replicate 120 'y'⟩
       , analysis := defaultAnalysis }]).2 :=
  (run_checkpoint_every_five (fun _ => "")).2.2.1 _ [] 5 (by decide)
    (by decide) (by decide)

/-! ### The crawler's dual-source merge (C7) -/

/-- One merge step preserves an existing binding at `u` whenever the event
touching `u` (if any) is DOM-scraped. -/
theorem applyEvent_preserves {m : String → Option JobRec} {u : String}
    {r : JobRec} (e : CrawlEvent) (hm : m u = some r)
    (hdom : e.url = u → e.isDom = true) : applyEvent m e u = some r := by
  match e with
  | .api v rec =>
    by_cases hv : u = v
    · exact absurd (hdom hv.symm) (by simp [CrawlEvent.isDom])
    · simp [applyEvent, hv, hm]
  | .dom v rec =>
    by_cases hv : u = v
    · subst hv
      simp [applyEvent, hm]
    · simp only [applyEvent]
      cases hmv : m v
      · simp [hv, hm]
      · exact hm

/-- One merge step leaves a binding at `u` exactly when one already
existed or the event's key is `u`. -/
theorem applyEvent_isSome (m : String → Option JobRec) (e : CrawlEvent)
    (u : String) :
    (applyEvent m e u).isSome = true ↔ (m u).isSome = true ∨ e.url = u := by
  match e with
  | .api v rec =>
    by_cases hv : u = v
    · subst hv
      simp [applyEvent, CrawlEvent.url]
    · simp only [applyEvent, CrawlEvent.url, if_neg hv]
      exact Iff.symm (or_iff_left (fun h => hv h.symm))
  | .dom v rec =>
    simp only [applyEvent, CrawlEvent.url]
    cases hmv : m v
    · by_cases hv : u = v
      · subst hv
        simp [hmv]
      · simp only [if_neg hv]
        exact Iff.symm (or_iff_left (fun h => hv h.symm))
    · by_cases hv : u = v
      · subst hv
        simp [hmv]
      · exact Iff.symm (or_iff_left (fun h => hv h.symm))

/-- Over a whole crawl, a binding at `u` survives if every event keyed at
`u` is DOM-scraped. -/
theorem crawlMerge_preserves (es : List CrawlEvent) :
    ∀ (m : String → Option JobRec) (u : String) (r : JobRec),
      m u = some r → (∀ e ∈ es, e.url = u → e.isDom = true) →
        crawlMerge es m u = some r := by
  induction es with
  | nil => intro m u r hm _; exact hm
  | cons e rest ih =>
    intro m u r hm hdom
    have hstep : applyEvent m e u = some r :=
      applyEvent_preserves e hm (hdom e (List.mem_cons_self _ _))
    exact ih _ _ _ hstep (fun e' he' => hdom e' (List.mem_cons_of_mem _ he'))

/-- Over a whole crawl, the merged dict binds `u` exactly when the initial
dict did or some event is keyed at `u`. -/
theorem crawlMerge_isSome (es : List CrawlEvent) :
    ∀ (m : String → Option JobRec) (u : String),
      (crawlMerge es m u).isSome = true ↔
        (m u).isSome = true ∨ ∃ e ∈ es, e.url = u := by
  induction es with
  | nil =>
    intro m u
    simp [crawlMerge]
  | cons e rest ih =>
    intro m u
    have : crawlMerge (e :: rest) m = crawlMerge rest (applyEvent m e) := rfl
    rw [this, ih, applyEvent_isSome]
    constructor
    · rintro (⟨h | h⟩ | ⟨e', he', hu⟩)
      · exact Or.inl h
      · exact Or.inr ⟨e, List.mem_cons_self _ _, h⟩
      · exact Or.inr ⟨e', List.mem_cons_of_mem _ he', hu⟩
    · rintro (h | ⟨e', he', hu⟩)
      · exact Or.inl (Or.inl h)
      · rcases List.mem_cons.1 he' with rfl | he'
        · exact Or.inl (Or.inr hu)
        · exact Or.inr ⟨e', he', hu⟩

/-- C7. The crawler accumulates API-sniffed and DOM-scraped discoveries in
one dict keyed by job URL: after any crawl, a URL is bound exactly when the
initial dict bound it or some discovery event carried it (the union of the
two sources); a DOM-scraped insertion never replaces an already-present
record with the same URL (it is guarded by `if url not in found_jobs`),
and hence a record held before any sequence of DOM-only events at its URL
is still held, unchanged, afterwards. -/
theorem crawler_merge_keyed_union (es : List CrawlEvent)
    (m : String → Option JobRec) (u : String) :
    ((crawlMerge es m u).isSome = true ↔
      (m u).isSome = true ∨ ∃ e ∈ es, e.url = u) ∧
    (∀ (rec r : JobRec), m u = some r →
      applyEvent m (CrawlEvent.dom u rec) u = some r) ∧
    (∀ r : JobRec, m u = some r →
      (∀ e ∈ es, e.url = u → e.isDom = true) → crawlMerge es m u = some r) := by
  refine ⟨crawlMerge_isSome es m u, fun rec r hm => ?_,
    fun r hm hdom => crawlMerge_preserves es m u r hm hdom⟩
  exact applyEvent_preserves _ hm (fun _ => rfl)

/-- C7 witness: a DOM discovery at an already-bound URL leaves the
API-sniffed record in place, and the merged dict binds exactly the union
of URLs. -/
theorem crawler_merge_keyed_union_witness :
    crawlMerge
        [CrawlEvent.dom "https://a/j1"
          { title := "Dom Title", url := "https://a/j1", content := none }]
        (fun v => if v = "https://a/j1"
          then some { title := "Api Title", url := "https://a/j1"
                    , content := some "rich" }
          else none)
        "https://a/j1" =
      some { title := "Api Title", url := "https://a/j1"
           , content := some "rich" } :=
  (crawler_merge_keyed_union _ _ _).2.2 _ (by decide) (by decide)

/-! ### The content fetcher (C8, C10) -/

/-- A Python slice `s[:n]` has at most `n` characters. -/
theorem pyTake_length_le (s : String) (n : Nat) : (pyTake s n).length ≤ n := by
  show (s.data.take n).length ≤ n
  simp [List.length_take]

/-- C8. `get_job_text` returns the inline `content[:6000]` — without
consulting the page at all — whenever the record's content is present and
longer than 100 characters; otherwise it is the browser extraction
`fetchFromPage`: the empty string when navigation fails, the first text
produced by the fixed selector sequence
`main, article, .job-description, #job-description, .content` truncated to
6000 characters when one yields non-empty text, the whole-page body text
truncated to 6000 characters when the selector loop yields nothing and
the body read succeeds, and the empty string (never an exception) when it
raises. -/
theorem get_job_text_spec (job : JobRec) (env : PageEnv) :
    (∀ c, job.content = some c → 100 < c.length →
      get_job_text job env = pyTake c 6000) ∧
    ((∀ c, job.content = some c → c.length ≤ 100) →
      get_job_text job env = fetchFromPage env) ∧
    candidateSelectors =
      ["main", "article", ".job-description", "#job-description", ".content"] ∧
    (env.navFails = true → fetchFromPage env = "") ∧
    (env.navFails = false → selectorLoop env candidateSelectors ≠ "" →
      fetchFromPage env = pyTake (selectorLoop env candidateSelectors) 6000) ∧
    (env.navFails = false → selectorLoop env candidateSelectors = "" →
      ∀ b, env.body = some b → fetchFromPage env = pyTake b 6000) ∧
    (env.navFails = false → selectorLoop env candidateSelectors = "" →
      env.body = none → fetchFromPage env = "") := by
  refine ⟨fun c hc hlen => ?_, fun hsmall => ?_, rfl, fun hnav => ?_,
    fun hnav hsel => ?_, fun hnav hsel b hb => ?_, fun hnav hsel hb => ?_⟩
  · simp [get_job_text, hc, hlen]
  · match hjc : job.content with
    | none => simp [get_job_text, hjc]
    | some c =>
      have : ¬100 < c.length := by
        have := hsmall c hjc
        omega
      simp [get_job_text, hjc, this]
  · simp [fetchFromPage, hnav]
  · simp [fetchFromPage, hnav, hsel]
  · simp [fetchFromPage, hnav, hsel, hb]
  · simp [fetchFromPage, hnav, hsel, hb]

/-- C8 witness: a record with 120 characters of inline content is served
from it, truncated slicing included, with no page interaction. -/
theorem get_job_text_spec_witness :
    get_job_text
        { title := "SDET", url := "https://a/3"
        , content := some ⟨List.replicate 120 'z'⟩ }
        { navFails := true, sel := fun _ => SelOutcome.err, body := none } =
      pyTake ⟨List.replicate 120 'z'⟩ 6000 :=
  (get_job_text_spec _ _).1 _ rfl (by decide)

/-- C10. Every return path of `get_job_text` — inline content, selector
extraction, body fallback, and the empty string on failure — yields at
most 6000 characters, thanks to the `[:6000]` slices. -/
theorem get_job_text_length_le_6000 (job : JobRec) (env : PageEnv) :
    (get_job_text job env).length ≤ 6000 := by
  have hempty : ("" : String).length ≤ 6000 := by decide
  have hfetch : (fetchFromPage env).length ≤ 6000 := by
    unfold fetchFromPage
    cases hnav : env.navFails
    · simp only [Bool.false_eq_true, if_false]
      by_cases hsel : selectorLoop env candidateSelectors = ""
      · simp only [hsel, if_pos rfl]
        cases hb : env.body
        · exact hempty
        · exact pyTake_length_le _ _
      · simp only [if_neg hsel]
        exact pyTake_length_le _ _
    · simp
  unfold get_job_text
  cases hjc : job.content
  · exact hfetch
  · by_cases hlen : 100 < (job.content.getD "").length
    · simp only [hjc] at hlen ⊢
      rw [if_pos (by simpa using hlen)]
      exact pyTake_length_le _ _
    · simp only [hjc] at hlen ⊢
      rw [if_neg (by simpa using hlen)]
      exact hfetch

/-! ### Resume output naming (C9) -/

/-- Stripping whitespace keeps a subset of the characters. -/
theorem mem_of_mem_pyStrip {l : List Char} {c : Char} (h : c ∈ pyStrip l) :
    c ∈ l := by
  unfold pyStrip at h
  rw [List.mem_reverse] at h
  have h1 := (List.dropWhile_sublist (l := (l.dropWhile pyIsSpace).reverse)
    (p := pyIsSpace)).subset h
  rw [List.mem_reverse] at h1
  exact (List.dropWhile_sublist (l := l) (p := pyIsSpace)).subset h1

/-- C9. `ResumeBuilderTool._run` writes a single output file per
invocation, named `Resume_Nani_<safe_jobid>.tex` inside the fixed output
directory; and for every job identifier, every character of the sanitized
portion between the fixed prefix and suffix is alphanumeric, an
underscore, or a hyphen (all other characters are removed and spaces are
converted to underscores). -/
theorem resume_output_filename_spec (isaln : Char → Bool) (jobid : String) :
    output_filename isaln jobid =
      "Resume_Nani_" ++ ⟨safe_jobid isaln jobid⟩ ++ ".tex" ∧
    ∀ c ∈ safe_jobid isaln jobid, isaln c = true ∨ c = '_' ∨ c = '-' := by
  refine ⟨rfl, fun c hc => ?_⟩
  unfold safe_jobid at hc
  rcases List.mem_map.1 hc with ⟨d, hd, rfl⟩
  have hpred := List.of_mem_filter (mem_of_mem_pyStrip hd)
  split_ifs with hsp
  · exact Or.inr (Or.inl rfl)
  · simp only [Bool.or_eq_true, decide_eq_true_eq] at hpred
    rcases hpred with ⟨⟨h | h⟩ | h⟩ | h
    · exact Or.inl h
    · exact absurd h hsp
    · exact Or.inr (Or.inl h)
    · exact Or.inr (Or.inr h)

/-- C9 witness: at a concrete job id, the underscore produced from a space
is among the allowed characters. -/
theorem resume_output_filename_spec_witness :
    Char.isAlphanum '_' = true ∨ '_' = '_' ∨ '_' = '-' :=
  (resume_output_filename_spec Char.isAlphanum "QA Lead (AI/ML) #7").2 '_'
    (by decide)
